import Mathlib

/-!
Shallow embedding of `src/crypto_price_api/server.js` (an Express HTTP proxy
over an upstream price provider) and proofs of the specified properties.

Modelling conventions:
- Timestamps (`Date.now()`, `createdAt`) are integers (milliseconds).
- The in-memory `Map` objects (price cache, API-key store) are association
  lists with `get`/`set` operations mirroring JS `Map.get`/`Map.set`.
- The upstream HTTP call is a parameter `upstream : String → Except String
  PriceData` giving, for a comma-separated ids string, either the decoded
  response body or the failure message thrown by the HTTP client.
- Each operation returns, besides its result, the new cache, the list of
  upstream queries it issued, and the `console.error` log lines it emitted,
  so that "no second upstream call" and "logged before rethrow" are
  directly expressible.
- JS truthiness on the `x-api-key` header: absent or empty string is falsy.
-/

namespace CryptoPriceApi

/-- JS `String.prototype.startsWith`: the candidate is a prefix of the
string character sequence. -/
def jsStartsWith (s p : String) : Bool := p.data.isPrefixOf s.data

/-- JS `String.prototype.toLowerCase`, modelled as lowercasing the
character sequence (`Char.toLower` lowers the basic latin range). -/
def jsToLower (s : String) : String := String.mk (s.data.map Char.toLower)

/-- Tier classification inside `validateApiKey` (server.js): start from
`free`, the `pro_` check runs first, then the `ent_` check. -/
def classifyTier (apiKey : String) : String :=
  let tier := "free"
  let tier := if jsStartsWith apiKey "pro_" then "pro" else tier
  let tier := if jsStartsWith apiKey "ent_" then "enterprise" else tier
  tier

/-- One asset entry of the upstream response body
(usd, 24h change, market cap, 24h volume). -/
structure AssetQuote where
  usd : Int
  usd_24h_change : Int
  usd_market_cap : Int
  usd_24h_vol : Int
deriving DecidableEq

/-- The upstream response body: mapping from asset id to its quote. -/
abbrev PriceData := List (String × AssetQuote)

/-- JS object indexing `prices[id]`: `none` plays the role of `undefined`. -/
def lookupAsset : PriceData → String → Option AssetQuote
  | [], _ => none
  | (k, q) :: rest, a => if k = a then some q else lookupAsset rest a

/-- One cache entry, as stored by `cache.set(cacheKey, { data, timestamp })`. -/
structure CacheEntry where
  data : PriceData
  timestamp : Int
deriving DecidableEq

/-- The in-memory cache `const cache = new Map()`. -/
abbrev Cache := List (String × CacheEntry)

/-- JS `cache.get(key)`. -/
def cacheGet : Cache → String → Option CacheEntry
  | [], _ => none
  | (k2, e) :: rest, k => if k2 = k then some e else cacheGet rest k

/-- JS `cache.set(key, entry)`: replaces the entry for `key`, or appends. -/
def cacheSet : Cache → String → CacheEntry → Cache
  | [], k, e => [(k, e)]
  | (k2, e2) :: rest, k, e =>
      if k2 = k then (k, e) :: rest else (k2, e2) :: cacheSet rest k e

/-- `const CACHE_TTL = 60000` (one minute, in milliseconds). -/
def CACHE_TTL : Int := 60000

/-- The freshness check inlined in `getCryptoPrices`:
`Date.now() - cached.timestamp < CACHE_TTL`. -/
def isFresh (e : CacheEntry) (now : Int) : Bool := now - e.timestamp < CACHE_TTL

/-- Result of one `getCryptoPrices` invocation: the returned (or thrown)
value, the cache afterwards, the upstream queries issued, and the
`console.error` lines emitted. -/
structure FetchResult where
  result : Except String PriceData
  cache : Cache
  calls : List String
  log : List String

/-- The fetch-and-populate path of `getCryptoPrices`: calls the upstream
once; on success stores `{ data, timestamp: Date.now() }` under the cache
key and returns the data; on failure logs the message and rethrows,
leaving the cache untouched. -/
def fetchAndStore (c : Cache) (now : Int) (upstream : String → Except String PriceData)
    (ids : String) (cacheKey : String) : FetchResult :=
  match upstream ids with
  | Except.ok d => ⟨Except.ok d, cacheSet c cacheKey ⟨d, now⟩, [ids], []⟩
  | Except.error e => ⟨Except.error e, c, [ids], ["Error fetching prices: " ++ e]⟩

/-- `getCryptoPrices(ids)` (server.js): cache key is `prices_` followed by
the ids string; a present and fresh entry is returned as-is, otherwise the
upstream is fetched and the cache repopulated. -/
def getCryptoPrices (c : Cache) (now : Int) (upstream : String → Except String PriceData)
    (ids : String) : FetchResult :=
  let cacheKey := "prices_" ++ ids
  match cacheGet c cacheKey with
  | some cached =>
      if isFresh cached now then ⟨Except.ok cached.data, c, [], []⟩
      else fetchAndStore c now upstream ids cacheKey
  | none => fetchAndStore c now upstream ids cacheKey

/-- An HTTP response as shaped by the route handlers: either the success
body `{ success: true, tier, data, timestamp }` or an error body with a
status code, an `error` field and an optional `message` field. -/
inductive HttpResult where
  | success (tier : String) (data : PriceData)
  | failure (status : Nat) (error : String) (message : Option String)
deriving DecidableEq

/-- The 401 body sent by `validateApiKey` when the key is missing. -/
def missingKeyResp : HttpResult :=
  HttpResult.failure 401 "API key required"
    (some "Get your free API key at https://your-domain.com")

/-- `validateApiKey` middleware: reads `req.headers` (`none` when the
header is absent; the empty string is equally falsy in JS), rejects with
401, otherwise resolves the tier from the key prefix. -/
def validateApiKey (apiKey : Option String) : Except HttpResult String :=
  match apiKey with
  | none => Except.error missingKeyResp
  | some k => if k = "" then Except.error missingKeyResp else Except.ok (classifyTier k)

/-- One rate-limiter configuration: window length in milliseconds and the
maximum number of requests inside one window. -/
structure LimitConfig where
  windowMs : Nat
  max : Nat
deriving DecidableEq

/-- The `limits` table inside `createRateLimit`. Indexing with an unknown
tier is `none` (in JS, `limits[tier]` would be `undefined`). -/
def limits (tier : String) : Option LimitConfig :=
  if tier = "free" then some ⟨60 * 60 * 1000, 100⟩
  else if tier = "pro" then some ⟨60 * 60 * 1000, 10000⟩
  else if tier = "enterprise" then some ⟨60 * 60 * 1000, 100000⟩
  else none

/-- `createRateLimit(tier)`: builds a limiter from the tier entry of the
`limits` table. -/
def createRateLimit (tier : String) : Option LimitConfig := limits tier

/-- The 429 body configured on the limiter
(`message: { error: ... }`; express-rate-limit rejects with status 429). -/
def rateLimitedResp : HttpResult :=
  HttpResult.failure 429 "Rate limit exceeded. Upgrade your plan." none

/-- The limiter instantiated at route registration for `GET /prices`:
`createRateLimit('free')`. -/
def pricesLimiter : LimitConfig := (createRateLimit "free").getD ⟨0, 0⟩

/-- The limiter instantiated at route registration for `GET /prices/:id`:
also `createRateLimit('free')`. -/
def pricesIdLimiter : LimitConfig := (createRateLimit "free").getD ⟨0, 0⟩

/-- Result of one routed request: the HTTP response, the cache afterwards,
the upstream queries issued and the log lines emitted. -/
structure RouteResult where
  resp : HttpResult
  cache : Cache
  calls : List String
  log : List String

/-- `GET /prices` pipeline: `validateApiKey`, then the free-tier limiter
(`count` is the number of requests already counted in the current window),
then the handler fetching `bitcoin,ethereum`. -/
def handlePrices (apiKey : Option String) (count : Nat) (c : Cache) (now : Int)
    (upstream : String → Except String PriceData) : RouteResult :=
  match validateApiKey apiKey with
  | Except.error r => ⟨r, c, [], []⟩
  | Except.ok tier =>
      if pricesLimiter.max ≤ count then ⟨rateLimitedResp, c, [], []⟩
      else
        match (getCryptoPrices c now upstream "bitcoin,ethereum").result with
        | Except.ok d =>
            ⟨HttpResult.success tier d, (getCryptoPrices c now upstream "bitcoin,ethereum").cache,
             (getCryptoPrices c now upstream "bitcoin,ethereum").calls,
             (getCryptoPrices c now upstream "bitcoin,ethereum").log⟩
        | Except.error e =>
            ⟨HttpResult.failure 500 "Failed to fetch prices" (some e),
             (getCryptoPrices c now upstream "bitcoin,ethereum").cache,
             (getCryptoPrices c now upstream "bitcoin,ethereum").calls,
             (getCryptoPrices c now upstream "bitcoin,ethereum").log⟩

/-- The 404 guidance message of `GET /prices/:id`
(note: it interpolates the raw, not lowercased, `id`). -/
def notFoundMessage (a : String) : String :=
  "No data for \x27" ++ a ++ "\x27. Try \x27bitcoin\x27, \x27ethereum\x27, \x27cardano\x27, etc."

/-- `GET /prices/:id` pipeline: same middleware; the path parameter is
lowercased before being used both as the query and for the lookup in the
returned mapping; a missing entry produces the 404 guidance body. -/
def handlePricesId (a : String) (apiKey : Option String) (count : Nat) (c : Cache) (now : Int)
    (upstream : String → Except String PriceData) : RouteResult :=
  match validateApiKey apiKey with
  | Except.error r => ⟨r, c, [], []⟩
  | Except.ok tier =>
      if pricesIdLimiter.max ≤ count then ⟨rateLimitedResp, c, [], []⟩
      else
        match (getCryptoPrices c now upstream (jsToLower a)).result with
        | Except.ok prices =>
            match lookupAsset prices (jsToLower a) with
            | none =>
                ⟨HttpResult.failure 404 "Cryptocurrency not found" (some (notFoundMessage a)),
                 (getCryptoPrices c now upstream (jsToLower a)).cache,
                 (getCryptoPrices c now upstream (jsToLower a)).calls,
                 (getCryptoPrices c now upstream (jsToLower a)).log⟩
            | some _ =>
                ⟨HttpResult.success tier prices, (getCryptoPrices c now upstream (jsToLower a)).cache,
                 (getCryptoPrices c now upstream (jsToLower a)).calls,
                 (getCryptoPrices c now upstream (jsToLower a)).log⟩
        | Except.error e =>
            ⟨HttpResult.failure 500 "Failed to fetch price" (some e),
             (getCryptoPrices c now upstream (jsToLower a)).cache,
             (getCryptoPrices c now upstream (jsToLower a)).calls,
             (getCryptoPrices c now upstream (jsToLower a)).log⟩

/-- The value stored in the API-key map:
`apiKeys.set(key, { tier, createdAt: new Date() })`. -/
structure ApiKeyRecord where
  tier : String
  createdAt : Int
deriving DecidableEq

/-- `const apiKeys = new Map()`. -/
abbrev KeyStore := List (String × ApiKeyRecord)

/-- JS `apiKeys.get(key)`. -/
def keysGet : KeyStore → String → Option ApiKeyRecord
  | [], _ => none
  | (k2, r) :: rest, k => if k2 = k then some r else keysGet rest k

/-- JS `apiKeys.set(key, record)`. -/
def keysSet : KeyStore → String → ApiKeyRecord → KeyStore
  | [], k, r => [(k, r)]
  | (k2, r2) :: rest, k, r =>
      if k2 = k then (k, r) :: rest else (k2, r2) :: keysSet rest k r

/-- Response and state after `POST /generate-key`. -/
structure GenKeyResult where
  apiKey : String
  tier : String
  message : String
  keys : KeyStore

/-- Key-prefix selection in `POST /generate-key`:
`tier === 'pro' ? 'pro_' : tier === 'enterprise' ? 'ent_' : 'free_'`. -/
def tierKeyStart (tier : String) : String :=
  if tier = "pro" then "pro_" else if tier = "enterprise" then "ent_" else "free_"

/-- `POST /generate-key`: `bodyTier` is the `tier` field of the body
(`none` when absent, defaulted to `free` by destructuring); `rand` stands
for the concatenation of the two random base-36 fragments. The key is
recorded with its (unvalidated) tier and the creation time, and the
response echoes the key and the tier. -/
def handleGenerateKey (bodyTier : Option String) (rand : String) (now : Int)
    (keys : KeyStore) : GenKeyResult :=
  let tier := bodyTier.getD "free"
  let key := tierKeyStart tier ++ rand
  ⟨key, tier, "This is a test key. For production, please upgrade.",
   keysSet keys key ⟨tier, now⟩⟩

/-! ## Helper lemmas -/

/-- Reading back the key just written returns the new entry. -/
theorem cacheGet_cacheSet_self (c : Cache) (k : String) (e : CacheEntry) :
    cacheGet (cacheSet c k e) k = some e := by
  induction c with
  | nil => simp [cacheSet, cacheGet]
  | cons hd tl ih =>
      obtain ⟨k2, e2⟩ := hd
      by_cases h : k2 = k <;> simp [cacheSet, cacheGet, h, ih]

/-- Writing one key leaves every other key unchanged. -/
theorem cacheGet_cacheSet_ne (c : Cache) (k k2 : String) (e : CacheEntry) (h : k2 ≠ k) :
    cacheGet (cacheSet c k e) k2 = cacheGet c k2 := by
  induction c with
  | nil => simp [cacheSet, cacheGet, Ne.symm h]
  | cons hd tl ih =>
      obtain ⟨k3, e3⟩ := hd
      by_cases h3 : k3 = k
      · subst h3
        simp [cacheSet, cacheGet, Ne.symm h]
      · simp [cacheSet, cacheGet, h3, ih]

/-- Reading back the key just stored in the key store. -/
theorem keysGet_keysSet_self (ks : KeyStore) (k : String) (r : ApiKeyRecord) :
    keysGet (keysSet ks k r) k = some r := by
  induction ks with
  | nil => simp [keysSet, keysGet]
  | cons hd tl ih =>
      obtain ⟨k2, r2⟩ := hd
      by_cases h : k2 = k <;> simp [keysSet, keysGet, h, ih]

/-- Appending to the left operand never falsifies a prefix test. -/
theorem jsStartsWith_append (p r : String) : jsStartsWith (p ++ r) p = true := by
  simp [jsStartsWith, String.data_append, List.isPrefixOf_iff_prefix, List.prefix_append]

/-- A prefix test no longer than the left operand of an append is decided
by the left operand alone. -/
theorem jsStartsWith_append_of_le (a b p : String)
    (hlen : p.data.length ≤ a.data.length) :
    jsStartsWith (a ++ b) p = jsStartsWith a p := by
  simp only [jsStartsWith, String.data_append]
  rw [Bool.eq_iff_iff]
  simp only [List.isPrefixOf_iff_prefix]
  constructor
  · intro h
    exact List.prefix_of_prefix_length_le h (List.prefix_append _ _) hlen
  · intro h
    exact h.trans (List.prefix_append _ _)

/-- A string starting with `pro_` cannot also start with `ent_`. -/
theorem not_ent_of_pro (s : String) (hp : jsStartsWith s "pro_" = true) :
    jsStartsWith s "ent_" = false := by
  by_contra hcon
  rw [Bool.not_eq_false] at hcon
  rw [jsStartsWith, List.isPrefixOf_iff_prefix] at hp hcon
  have h := List.prefix_of_prefix_length_le hp hcon (by decide)
  have h2 := h.eq_of_length (by decide)
  exact absurd h2 (by decide)

/-- Concatenation with a fixed left string is injective. -/
theorem string_append_cancel_left (a b c : String) (h : a ++ b = a ++ c) : b = c := by
  apply String.ext
  have h2 := congrArg String.data h
  simp only [String.data_append] at h2
  exact List.append_cancel_left h2

/-- `getCryptoPrices` unfolded, with its cache-key `let` resolved. -/
theorem getCryptoPrices_eq (c : Cache) (now : Int)
    (u : String → Except String PriceData) (ids : String) :
    getCryptoPrices c now u ids =
      match cacheGet c ("prices_" ++ ids) with
      | some cached =>
          if isFresh cached now then ⟨Except.ok cached.data, c, [], []⟩
          else fetchAndStore c now u ids ("prices_" ++ ids)
      | none => fetchAndStore c now u ids ("prices_" ++ ids) := rfl

/-- `getCryptoPrices` issues either no upstream query (fresh hit) or
exactly the one query for its own ids string. -/
theorem getCryptoPrices_calls (c : Cache) (now : Int)
    (u : String → Except String PriceData) (ids : String) :
    (getCryptoPrices c now u ids).calls = [] ∨
      (getCryptoPrices c now u ids).calls = [ids] := by
  rw [getCryptoPrices_eq]
  cases hget : cacheGet c ("prices_" ++ ids) with
  | none => cases hu : u ids <;> simp [fetchAndStore, hu]
  | some cached =>
      by_cases h : isFresh cached now
      · simp [h]
      · cases hu : u ids <;> simp [h, fetchAndStore, hu]

/-- `getCryptoPrices` never touches a cache key other than its own. -/
theorem getCryptoPrices_cache_other (c : Cache) (now : Int)
    (u : String → Except String PriceData) (ids k2 : String)
    (h : k2 ≠ "prices_" ++ ids) :
    cacheGet (getCryptoPrices c now u ids).cache k2 = cacheGet c k2 := by
  rw [getCryptoPrices_eq]
  cases hget : cacheGet c ("prices_" ++ ids) with
  | none => cases hu : u ids <;> simp [fetchAndStore, hu, cacheGet_cacheSet_ne _ _ _ _ h]
  | some cached =>
      by_cases hf : isFresh cached now
      · simp [hf]
      · cases hu : u ids <;> simp [hf, fetchAndStore, hu, cacheGet_cacheSet_ne _ _ _ _ h]

/-! ## Claim theorems -/

/-- Claim C1: after a request for query q completes a successful upstream
fetch at time t, any second request for q at a time t2 with t2 - t below
60000 ms issues no upstream call and returns the identical payload;
freshness is exactly the predicate now - fetchedAt below the TTL, with
the TTL fixed at 60000 ms (a request at or past the window fetches again). -/
theorem c1_cache_hit_within_ttl (c : Cache) (t t2 : Int)
    (u u2 : String → Except String PriceData) (q : String) (d : PriceData)
    (hmiss : ∀ e, cacheGet c ("prices_" ++ q) = some e → isFresh e t = false)
    (hok : u q = Except.ok d) :
    CACHE_TTL = 60000 ∧
    getCryptoPrices c t u q =
      ⟨Except.ok d, cacheSet c ("prices_" ++ q) ⟨d, t⟩, [q], []⟩ ∧
    (t2 - t < 60000 →
      getCryptoPrices (cacheSet c ("prices_" ++ q) ⟨d, t⟩) t2 u2 q =
        ⟨Except.ok d, cacheSet c ("prices_" ++ q) ⟨d, t⟩, [], []⟩) ∧
    (60000 ≤ t2 - t →
      (getCryptoPrices (cacheSet c ("prices_" ++ q) ⟨d, t⟩) t2 u2 q).calls = [q]) := by
  refine ⟨rfl, ?_, ?_, ?_⟩
  · rw [getCryptoPrices_eq]
    cases hget : cacheGet c ("prices_" ++ q) with
    | none => simp [fetchAndStore, hok]
    | some e => simp [hmiss e hget, fetchAndStore, hok]
  · intro hlt
    rw [getCryptoPrices_eq, cacheGet_cacheSet_self]
    have hf : isFresh ⟨d, t⟩ t2 = true := by
      simp [isFresh, CACHE_TTL]
      omega
    simp [hf]
  · intro hge
    rw [getCryptoPrices_eq, cacheGet_cacheSet_self]
    have hf : isFresh ⟨d, t⟩ t2 = false := by
      simp [isFresh, CACHE_TTL]
      omega
    cases hu : u2 q <;> simp [hf, fetchAndStore, hu]

/-- Concrete run of the C1 theorem on an empty cache. -/
theorem c1_cache_hit_within_ttl_witness :
    getCryptoPrices [] 0 (fun _ => Except.ok []) "bitcoin" =
      ⟨Except.ok [], cacheSet [] ("prices_" ++ "bitcoin") ⟨[], 0⟩, ["bitcoin"], []⟩ :=
  (c1_cache_hit_within_ttl [] 0 1 (fun _ => Except.ok []) (fun _ => Except.ok [])
    "bitcoin" [] (fun e h => by simp [cacheGet] at h) rfl).2.1

/-- Claim C2: tier classification is a pure function of the key prefix —
enterprise for a key starting with ent_, pro for a key starting with
pro_, free otherwise — and an absent x-api-key header is rejected with
HTTP 401 and an error body instead of being assigned any tier. -/
theorem c2_tier_classification (k : String) :
    (jsStartsWith k "ent_" = true → classifyTier k = "enterprise") ∧
    (jsStartsWith k "pro_" = true → classifyTier k = "pro") ∧
    (jsStartsWith k "ent_" = false → jsStartsWith k "pro_" = false →
      classifyTier k = "free") ∧
    validateApiKey none = Except.error missingKeyResp ∧
    (∀ n c now u, handlePrices none n c now u = ⟨missingKeyResp, c, [], []⟩) ∧
    missingKeyResp = HttpResult.failure 401 "API key required"
      (some "Get your free API key at https://your-domain.com") := by
  refine ⟨?_, ?_, ?_, rfl, fun n c now u => rfl, rfl⟩
  · intro h
    simp [classifyTier, h]
  · intro h
    simp [classifyTier, h, not_ent_of_pro k h]
  · intro h1 h2
    simp [classifyTier, h1, h2]

/-- Concrete instances of the C2 theorem. -/
theorem c2_tier_classification_witness :
    classifyTier "ent_x" = "enterprise" ∧ classifyTier "pro_x" = "pro" ∧
      classifyTier "anything_else" = "free" :=
  ⟨(c2_tier_classification "ent_x").1 (by decide),
   (c2_tier_classification "pro_x").2.1 (by decide),
   (c2_tier_classification "anything_else").2.2.1 (by decide) (by decide)⟩

/-- Claim C6: the cache is mutated only by population after a successful
fetch: a failed fetch leaves the whole cache (stale entry included)
unchanged, a successful one either serves a fresh hit without writing or
replaces the entry for its key atomically as one whole record, and no
other key is ever touched. -/
theorem c6_cache_mutation_discipline (c : Cache) (now : Int)
    (u : String → Except String PriceData) (ids : String) :
    (∀ e, u ids = Except.error e → (getCryptoPrices c now u ids).cache = c) ∧
    (∀ d, u ids = Except.ok d →
      (getCryptoPrices c now u ids).cache = c ∨
        (getCryptoPrices c now u ids).cache =
          cacheSet c ("prices_" ++ ids) ⟨d, now⟩) ∧
    (∀ k2, k2 ≠ "prices_" ++ ids →
      cacheGet (getCryptoPrices c now u ids).cache k2 = cacheGet c k2) := by
  refine ⟨?_, ?_, fun k2 h => getCryptoPrices_cache_other c now u ids k2 h⟩
  · intro e he
    rw [getCryptoPrices_eq]
    cases hget : cacheGet c ("prices_" ++ ids) with
    | none => simp [fetchAndStore, he]
    | some cached =>
        by_cases hf : isFresh cached now
        · simp [hf]
        · simp [hf, fetchAndStore, he]
  · intro d hd
    rw [getCryptoPrices_eq]
    cases hget : cacheGet c ("prices_" ++ ids) with
    | none => right; simp [fetchAndStore, hd]
    | some cached =>
        by_cases hf : isFresh cached now
        · left; simp [hf]
        · right; simp [hf, fetchAndStore, hd]

/-- Concrete run of the C6 theorem: a failed fetch changes nothing. -/
theorem c6_cache_mutation_discipline_witness :
    (getCryptoPrices [] 0 (fun _ => Except.error "boom") "bitcoin").cache = [] :=
  (c6_cache_mutation_discipline [] 0 (fun _ => Except.error "boom") "bitcoin").1 "boom" rfl

/-- Claim C9: a fresh cache hit is a pure read: the returned payload is
the stored one and the cache — the entry and its timestamp included — is
returned unchanged, with no upstream call, so the freshness window is
always measured from the original fetch time and never slides. -/
theorem c9_cache_hit_pure_read (c : Cache) (now : Int)
    (u : String → Except String PriceData) (ids : String) (e : CacheEntry)
    (hget : cacheGet c ("prices_" ++ ids) = some e)
    (hfresh : now - e.timestamp < CACHE_TTL) :
    getCryptoPrices c now u ids = ⟨Except.ok e.data, c, [], []⟩ := by
  rw [getCryptoPrices_eq, hget]
  have hf : isFresh e now = true := by
    simp [isFresh]
    exact hfresh
  simp [hf]

/-- Concrete run of the C9 theorem on a one-entry cache. -/
theorem c9_cache_hit_pure_read_witness :
    getCryptoPrices [("prices_" ++ "bitcoin", ⟨[], 0⟩)] 0
        (fun _ => Except.error "down") "bitcoin" =
      ⟨Except.ok ([] : PriceData), [("prices_" ++ "bitcoin", ⟨[], 0⟩)], [], []⟩ :=
  c9_cache_hit_pure_read _ 0 _ "bitcoin" ⟨[], 0⟩ (by simp [cacheGet]) (by decide)

/-- Claim C3: the limiter configuration table is exactly free 100, pro
10000 and enterprise 100000 requests per one-hour window, and both GET
/prices and GET /prices/:id are registered with the free-tier limiter, so
every caller — whatever tier the key resolves to — is rejected once 100
requests are counted in the window and passes below that. -/
theorem c3_rate_limit_free_for_all (k : String) (n : Nat) (c : Cache) (now : Int)
    (u : String → Except String PriceData) (a : String) (hk : k ≠ "") :
    createRateLimit "free" = some ⟨60 * 60 * 1000, 100⟩ ∧
    createRateLimit "pro" = some ⟨60 * 60 * 1000, 10000⟩ ∧
    createRateLimit "enterprise" = some ⟨60 * 60 * 1000, 100000⟩ ∧
    pricesLimiter = ⟨60 * 60 * 1000, 100⟩ ∧
    pricesIdLimiter = ⟨60 * 60 * 1000, 100⟩ ∧
    (100 ≤ n →
      handlePrices (some k) n c now u = ⟨rateLimitedResp, c, [], []⟩ ∧
      handlePricesId a (some k) n c now u = ⟨rateLimitedResp, c, [], []⟩) ∧
    (n < 100 →
      (handlePrices (some k) n c now u).resp ≠ rateLimitedResp ∧
      (handlePricesId a (some k) n c now u).resp ≠ rateLimitedResp) := by
  refine ⟨rfl, rfl, rfl, rfl, rfl, ?_, ?_⟩
  · intro h
    constructor
    · unfold handlePrices
      simp [validateApiKey, hk, pricesLimiter, createRateLimit, limits, h]
    · unfold handlePricesId
      simp [validateApiKey, hk, pricesIdLimiter, createRateLimit, limits, h]
  · intro h
    constructor
    · unfold handlePrices
      simp only [validateApiKey, hk, if_neg hk, pricesLimiter, createRateLimit, limits,
        if_pos rfl, Option.getD_some, if_neg (Nat.not_le.mpr h)]
      cases hres : (getCryptoPrices c now u "bitcoin,ethereum").result <;>
        simp [hres, rateLimitedResp, Nat.not_le.mpr h]
    · unfold handlePricesId
      simp only [validateApiKey, hk, if_neg hk, pricesIdLimiter, createRateLimit, limits,
        if_pos rfl, Option.getD_some, if_neg (Nat.not_le.mpr h)]
      cases hres : (getCryptoPrices c now u (jsToLower a)).result with
      | error e => simp [hres, rateLimitedResp, Nat.not_le.mpr h]
      | ok prices =>
          cases hlook : lookupAsset prices (jsToLower a) <;>
            simp [hres, hlook, rateLimitedResp, Nat.not_le.mpr h]

/-- Concrete run of the C3 theorem: an enterprise-prefixed key is still
rejected by the free limiter at 100 counted requests. -/
theorem c3_rate_limit_free_for_all_witness :
    handlePrices (some "ent_vip") 100 [] 0 (fun _ => Except.ok []) =
      ⟨rateLimitedResp, [], [], []⟩ :=
  ((c3_rate_limit_free_for_all "ent_vip" 100 [] 0 (fun _ => Except.ok []) "bitcoin"
      (by decide)).2.2.2.2.2.1 (by decide)).1

/-- Claim C4: GET /prices/:id lowercases the path parameter before using
it as the single asset id — for the cache key and for the upstream query
alike — answers 404 with an error field and a guidance message when the
returned mapping has no entry for the lowercased id, and otherwise
answers with the success shape. -/
theorem c4_prices_id (a k : String) (n : Nat) (c : Cache) (now : Int)
    (u : String → Except String PriceData) (prices : PriceData)
    (hk : k ≠ "") (hn : n < 100)
    (hres : (getCryptoPrices c now u (jsToLower a)).result = Except.ok prices) :
    (lookupAsset prices (jsToLower a) = none →
      handlePricesId a (some k) n c now u =
        ⟨HttpResult.failure 404 "Cryptocurrency not found" (some (notFoundMessage a)),
         (getCryptoPrices c now u (jsToLower a)).cache,
         (getCryptoPrices c now u (jsToLower a)).calls,
         (getCryptoPrices c now u (jsToLower a)).log⟩) ∧
    (∀ qt, lookupAsset prices (jsToLower a) = some qt →
      handlePricesId a (some k) n c now u =
        ⟨HttpResult.success (classifyTier k) prices,
         (getCryptoPrices c now u (jsToLower a)).cache,
         (getCryptoPrices c now u (jsToLower a)).calls,
         (getCryptoPrices c now u (jsToLower a)).log⟩) ∧
    ((getCryptoPrices c now u (jsToLower a)).calls = [] ∨
      (getCryptoPrices c now u (jsToLower a)).calls = [(jsToLower a)]) ∧
    (∀ k2, k2 ≠ "prices_" ++ (jsToLower a) →
      cacheGet (getCryptoPrices c now u (jsToLower a)).cache k2 = cacheGet c k2) := by
  refine ⟨?_, ?_, getCryptoPrices_calls c now u (jsToLower a),
    fun k2 h => getCryptoPrices_cache_other c now u (jsToLower a) k2 h⟩
  · intro hnone
    unfold handlePricesId
    simp [validateApiKey, hk, pricesIdLimiter, createRateLimit, limits,
      Nat.not_le.mpr hn, hres, hnone]
  · intro qt hsome
    unfold handlePricesId
    simp [validateApiKey, hk, pricesIdLimiter, createRateLimit, limits,
      Nat.not_le.mpr hn, hres, hsome]

/-- Concrete run of the C4 theorem: the mixed-case id Bitcoin is
lowercased and served from the upstream mapping. -/
theorem c4_prices_id_witness :
    handlePricesId "Bitcoin" (some "k1") 0 [] 0
        (fun _ => Except.ok [("bitcoin", ⟨1, 2, 3, 4⟩)]) =
      ⟨HttpResult.success (classifyTier "k1") [("bitcoin", ⟨1, 2, 3, 4⟩)],
       (getCryptoPrices [] 0 (fun _ => Except.ok [("bitcoin", ⟨1, 2, 3, 4⟩)])
          (jsToLower "Bitcoin")).cache,
       (getCryptoPrices [] 0 (fun _ => Except.ok [("bitcoin", ⟨1, 2, 3, 4⟩)])
          (jsToLower "Bitcoin")).calls,
       (getCryptoPrices [] 0 (fun _ => Except.ok [("bitcoin", ⟨1, 2, 3, 4⟩)])
          (jsToLower "Bitcoin")).log⟩ :=
  (c4_prices_id "Bitcoin" "k1" 0 [] 0 (fun _ => Except.ok [("bitcoin", ⟨1, 2, 3, 4⟩)])
      [("bitcoin", ⟨1, 2, 3, 4⟩)] (by decide) (by decide) rfl).2.1
    ⟨1, 2, 3, 4⟩ (by decide)

/-- Claim C5: when the upstream fetch fails, exactly one upstream attempt
is made, the failure is logged and rethrown (never swallowed), and GET
/prices answers 500 with an error field and a message field carrying the
underlying failure message. -/
theorem c5_upstream_failure (c : Cache) (now : Int)
    (u : String → Except String PriceData) (e k : String) (n : Nat)
    (hmiss : ∀ en, cacheGet c ("prices_" ++ "bitcoin,ethereum") = some en →
      isFresh en now = false)
    (hk : k ≠ "") (hn : n < 100) (hu : u "bitcoin,ethereum" = Except.error e) :
    getCryptoPrices c now u "bitcoin,ethereum" =
      ⟨Except.error e, c, ["bitcoin,ethereum"], ["Error fetching prices: " ++ e]⟩ ∧
    handlePrices (some k) n c now u =
      ⟨HttpResult.failure 500 "Failed to fetch prices" (some e), c,
       ["bitcoin,ethereum"], ["Error fetching prices: " ++ e]⟩ := by
  have hfetch : getCryptoPrices c now u "bitcoin,ethereum" =
      ⟨Except.error e, c, ["bitcoin,ethereum"], ["Error fetching prices: " ++ e]⟩ := by
    rw [getCryptoPrices_eq]
    cases hget : cacheGet c ("prices_" ++ "bitcoin,ethereum") with
    | none => simp [fetchAndStore, hu]
    | some en => simp [hmiss en hget, fetchAndStore, hu]
  refine ⟨hfetch, ?_⟩
  unfold handlePrices
  simp [validateApiKey, hk, pricesLimiter, createRateLimit, limits,
    Nat.not_le.mpr hn, hfetch]

/-- Concrete run of the C5 theorem with a timed-out upstream. -/
theorem c5_upstream_failure_witness :
    handlePrices (some "k1") 0 [] 7 (fun _ => Except.error "timeout of 10000ms exceeded") =
      ⟨HttpResult.failure 500 "Failed to fetch prices"
         (some "timeout of 10000ms exceeded"), [],
       ["bitcoin,ethereum"], ["Error fetching prices: " ++ "timeout of 10000ms exceeded"]⟩ :=
  (c5_upstream_failure [] 7 (fun _ => Except.error "timeout of 10000ms exceeded")
    "timeout of 10000ms exceeded" "k1" 0 (fun en h => by simp [cacheGet] at h)
    (by decide) (by decide) rfl).2

/-- Claim C7: POST /generate-key returns a freshly built token prefixed by
the requested tier — pro_ for pro, ent_ for enterprise, free_ for free or
an absent tier field — and records it in the key store with its tier and
creation time; a body with tier pro always yields a key beginning with
pro_. -/
theorem c7_generate_key (bodyTier : Option String) (rand : String) (now : Int)
    (ks : KeyStore) :
    (bodyTier = some "pro" →
      (handleGenerateKey bodyTier rand now ks).apiKey = "pro_" ++ rand ∧
      jsStartsWith (handleGenerateKey bodyTier rand now ks).apiKey "pro_" = true) ∧
    (bodyTier = some "enterprise" →
      (handleGenerateKey bodyTier rand now ks).apiKey = "ent_" ++ rand) ∧
    (bodyTier = some "free" ∨ bodyTier = none →
      (handleGenerateKey bodyTier rand now ks).apiKey = "free_" ++ rand) ∧
    keysGet (handleGenerateKey bodyTier rand now ks).keys
        (handleGenerateKey bodyTier rand now ks).apiKey =
      some ⟨bodyTier.getD "free", now⟩ ∧
    (handleGenerateKey bodyTier rand now ks).tier = bodyTier.getD "free" := by
  refine ⟨?_, ?_, ?_, ?_, rfl⟩
  · rintro rfl
    exact ⟨rfl, jsStartsWith_append "pro_" rand⟩
  · rintro rfl
    rfl
  · rintro (rfl | rfl) <;> rfl
  · simp [handleGenerateKey, keysGet_keysSet_self]

/-- Concrete run of the C7 theorem with body tier pro. -/
theorem c7_generate_key_witness :
    (handleGenerateKey (some "pro") "abc123xyz" 5 []).apiKey = "pro_" ++ "abc123xyz" :=
  ((c7_generate_key (some "pro") "abc123xyz" 5 []).1 rfl).1

/-- Claim C10: a POST /generate-key body with any tier string other than
pro and enterprise yields a free_-prefixed key — which tier
classification resolves to free — while the response and the stored
record echo the supplied tier string verbatim, unvalidated. -/
theorem c10_generate_key_unrecognized (t rand : String) (now : Int) (ks : KeyStore)
    (h1 : t ≠ "pro") (h2 : t ≠ "enterprise") :
    (handleGenerateKey (some t) rand now ks).apiKey = "free_" ++ rand ∧
    (handleGenerateKey (some t) rand now ks).tier = t ∧
    keysGet (handleGenerateKey (some t) rand now ks).keys ("free_" ++ rand) =
      some ⟨t, now⟩ ∧
    classifyTier ("free_" ++ rand) = "free" := by
  have hkey : tierKeyStart t = "free_" := by simp [tierKeyStart, h1, h2]
  refine ⟨?_, rfl, ?_, ?_⟩
  · simp [handleGenerateKey, hkey]
  · simp [handleGenerateKey, hkey, keysGet_keysSet_self]
  · have hp : jsStartsWith ("free_" ++ rand) "pro_" = false := by
      rw [jsStartsWith_append_of_le _ _ _ (by decide)]
      decide
    have he : jsStartsWith ("free_" ++ rand) "ent_" = false := by
      rw [jsStartsWith_append_of_le _ _ _ (by decide)]
      decide
    simp [classifyTier, hp, he]

/-- Concrete run of the C10 theorem with the unrecognized tier platinum. -/
theorem c10_generate_key_unrecognized_witness :
    (handleGenerateKey (some "platinum") "abc" 0 []).apiKey = "free_" ++ "abc" ∧
      (handleGenerateKey (some "platinum") "abc" 0 []).tier = "platinum" :=
  ⟨(c10_generate_key_unrecognized "platinum" "abc" 0 [] (by decide) (by decide)).1,
   (c10_generate_key_unrecognized "platinum" "abc" 0 [] (by decide) (by decide)).2.1⟩

/-- Claim C8: cache lookups and writes are keyed by the exact query
string: a request for q1 never consults or overwrites the entry of a
distinct query q2 — its write stays on its own key, and its result and
upstream calls depend only on the cache entry for its own key. -/
theorem c8_cache_key_isolation (c c2 : Cache) (now : Int)
    (u : String → Except String PriceData) (q1 q2 : String) (hq : q1 ≠ q2) :
    cacheGet (getCryptoPrices c now u q1).cache ("prices_" ++ q2) =
      cacheGet c ("prices_" ++ q2) ∧
    (cacheGet c ("prices_" ++ q1) = cacheGet c2 ("prices_" ++ q1) →
      (getCryptoPrices c now u q1).result = (getCryptoPrices c2 now u q1).result ∧
      (getCryptoPrices c now u q1).calls = (getCryptoPrices c2 now u q1).calls) := by
  constructor
  · apply getCryptoPrices_cache_other
    intro h
    exact hq (string_append_cancel_left "prices_" q2 q1 h).symm
  · intro hsame
    rw [getCryptoPrices_eq, getCryptoPrices_eq, ← hsame]
    cases hget : cacheGet c ("prices_" ++ q1) with
    | none => cases hu : u q1 <;> simp [fetchAndStore, hu]
    | some cached =>
        by_cases hf : isFresh cached now
        · simp [hf]
        · cases hu : u q1 <;> simp [hf, fetchAndStore, hu]

/-- Concrete run of the C8 theorem: caching bitcoin,ethereum does not
create or change an entry for bitcoin alone. -/
theorem c8_cache_key_isolation_witness :
    cacheGet (getCryptoPrices [] 0 (fun _ => Except.ok []) "bitcoin,ethereum").cache
        ("prices_" ++ "bitcoin") =
      cacheGet [] ("prices_" ++ "bitcoin") :=
  (c8_cache_key_isolation [] [] 0 (fun _ => Except.ok []) "bitcoin,ethereum" "bitcoin"
    (by decide)).1

end CryptoPriceApi
